import Mathlib

/-!
Verification of the PDF2Key conversion pipeline against its specification.

The development shallowly embeds the three source files of the repository:

* `src/pdf_processor.rs` — `PdfProcessor::render_pages` / `page_count`;
* `src/keynote.rs` — `KeynoteBuilder::new` / `add_slide` / `build` and the
  AppleScript program that `build` generates and hands to `osascript`;
* `src/main.rs` — `Pdf2KeyApp::start_conversion` and
  `convert_pdf_to_keynote`, the orchestration layer.

Rust `f32` arithmetic on page dimensions and progress fractions is modelled
by exact rational arithmetic (`ℚ`); every concrete value appearing in a
theorem below is chosen far from any `f32` rounding boundary, so the
modelled comparisons agree with the compiled program's. External effects
(pdfium, the filesystem, `osascript`) are modelled as explicit environment
parameters, and the side effects the code performs are recorded in an
explicit event trace.
-/

/-- Truncation toward zero of a rational, modelling Rust's `as i32` cast of a
non-negative `f32` expression (`pdf_processor.rs` lines 48 and 51). -/
def truncI32 (q : ℚ) : Int := if 0 ≤ q then ⌊q⌋ else -⌊-q⌋

/-- Rounding to nearest, following the words of the specification
(`round(pageWidthPoints * dpi / 72)`); written only for comparison with the
truncation the code actually performs. -/
def specRound (q : ℚ) : Int := ⌊q + 1/2⌋

/-- A PDF page: intrinsic width and height in points, 72 per inch
(spec §3, "Page"). -/
structure PdfPage where
  width : ℚ
  height : ℚ

/-- The pixel-dimension configuration `PdfProcessor::render_pages` computes
for one page (`pdf_processor.rs` lines 46-52):
`set_target_width((page.width().value * dpi as f32 / 72.0) as i32)` and
`set_maximum_height((page.height().value * dpi as f32 / 72.0) as i32)`. -/
structure RenderedImage where
  targetWidth : Int
  maxHeight : Int

/-- The per-page loop of `PdfProcessor::render_pages`
(`pdf_processor.rs` lines 45-64): pages are processed in document order,
`pageOk i` tells whether pdfium succeeds in rasterizing page `i`, and the
first failing page aborts the whole call with the error
`"Falha ao renderizar página {index + 1}"`. -/
def renderLoop (dpi : ℚ) (pageOk : Nat → Bool) :
    List PdfPage → Nat → Except String (List RenderedImage)
  | [], _ => .ok []
  | p :: rest, i =>
    if pageOk i then
      match renderLoop dpi pageOk rest (i + 1) with
      | .ok imgs =>
          .ok (⟨truncI32 (p.width * dpi / 72), truncI32 (p.height * dpi / 72)⟩ :: imgs)
      | .error e => .error e
    else
      .error ("Falha ao renderizar página " ++ toString (i + 1))

/-- Model of `PdfProcessor::render_pages` (`pdf_processor.rs` lines 36-67).
`openOk` is whether `load_pdf_from_file` succeeds; on failure the call is
wrapped with the context `"Falha ao abrir o arquivo PDF"`. -/
def render_pages (openOk : Bool) (pages : List PdfPage) (dpi : ℚ)
    (pageOk : Nat → Bool) : Except String (List RenderedImage) :=
  if openOk then renderLoop dpi pageOk pages 0
  else .error "Falha ao abrir o arquivo PDF"

theorem renderLoop_ok_eq (dpi : ℚ) (pageOk : Nat → Bool) :
    ∀ (pages : List PdfPage) (i : Nat) (imgs : List RenderedImage),
      renderLoop dpi pageOk pages i = .ok imgs →
      imgs = pages.map (fun p =>
        ⟨truncI32 (p.width * dpi / 72), truncI32 (p.height * dpi / 72)⟩)
  | [], _, imgs, h => by
    simpa [renderLoop] using h.symm
  | p :: rest, i, imgs, h => by
    by_cases hp : pageOk i
    · simp only [renderLoop, hp, if_true] at h
      cases hrec : renderLoop dpi pageOk rest (i + 1) with
      | ok imgs' =>
        rw [hrec] at h
        cases h
        simp [List.map, renderLoop_ok_eq dpi pageOk rest (i + 1) imgs' hrec]
      | error e => rw [hrec] at h; cases h
    · simp [renderLoop, hp] at h

/-- C3 (amended): for every opened document and dpi, the configuration the
code computes for page `p` is target width `trunc(p.width * dpi / 72)` and
maximum height `trunc(p.height * dpi / 72)` — truncation toward zero, not
rounding to nearest, and the height bound is a maximum, not a target. -/
theorem render_pages_truncated_dims (openOk : Bool) (pages : List PdfPage)
    (dpi : ℚ) (pageOk : Nat → Bool) (imgs : List RenderedImage)
    (h : render_pages openOk pages dpi pageOk = .ok imgs) :
    imgs = pages.map (fun p =>
      ⟨truncI32 (p.width * dpi / 72), truncI32 (p.height * dpi / 72)⟩) := by
  by_cases ho : openOk
  · rw [render_pages, if_pos ho] at h
    exact renderLoop_ok_eq dpi pageOk pages 0 imgs h
  · rw [render_pages, if_neg ho] at h
    cases h

/-- Witness for C3 (amended), the 3-page dpi=200 scenario of the claim: two
US-Letter pages (612 × 792 pt) render exactly (1700 × 2200), and a 500 × 500 pt
page truncates 1388.88… to 1388. -/
theorem render_pages_truncated_dims_witness :
    render_pages true [⟨612, 792⟩, ⟨612, 792⟩, ⟨500, 500⟩] 200 (fun _ => true) =
      .ok [⟨1700, 2200⟩, ⟨1700, 2200⟩, ⟨1388, 1388⟩] ∧
    [(⟨1700, 2200⟩ : RenderedImage), ⟨1700, 2200⟩, ⟨1388, 1388⟩] =
      ([⟨612, 792⟩, ⟨612, 792⟩, ⟨500, 500⟩] : List PdfPage).map (fun p =>
        ⟨truncI32 (p.width * 200 / 72), truncI32 (p.height * 200 / 72)⟩) := by
  have h : render_pages true [⟨612, 792⟩, ⟨612, 792⟩, ⟨500, 500⟩] 200 (fun _ => true) =
      .ok [⟨1700, 2200⟩, ⟨1700, 2200⟩, ⟨1388, 1388⟩] := by
    simp only [render_pages, renderLoop, truncI32, if_true]
    norm_num
  exact ⟨h, render_pages_truncated_dims true _ 200 _ _ h⟩

/-- C3 (counterexample): on a 500 × 500 pt page at dpi 200 the code's target
width is `trunc(500·200/72) = 1388`, while the claimed dimension
`round(500·200/72)` is 1389, so the rendered image's target dimensions are
not `round(w·dpi/72) × round(h·dpi/72)`. -/
theorem render_pages_round_counterexample :
    render_pages true [⟨500, 500⟩] 200 (fun _ => true) = .ok [⟨1388, 1388⟩] ∧
    specRound (500 * 200 / 72) = 1389 ∧ (1388 : Int) ≠ 1389 := by
  refine ⟨?_, ?_, by decide⟩
  · simp only [render_pages, renderLoop, truncI32, if_true]
    norm_num
  · rw [specRound]
    norm_num

/-- Spool filename for one page ordinal, modelling
`format!("slide_{:04}.png", i)` at `main.rs` line 415: the ordinal is
printed in decimal (`Nat.toDigits 10`, the numeral printer) and left-padded
with `'0'` to a minimum width of 4. -/
def pad4 (n : Nat) : String :=
  let ds := Nat.toDigits 10 n
  String.mk (List.replicate (4 - ds.length) '0' ++ ds)

/-- The spooled slide filename `slide_{:04}.png` (`main.rs` line 415). -/
def slideFilename (i : Nat) : String := "slide_" ++ pad4 i ++ ".png"

theorem toDigitsCore_append (fuel : Nat) :
    ∀ (n : Nat) (ds : List Char),
      Nat.toDigitsCore 10 fuel n ds = Nat.toDigitsCore 10 fuel n [] ++ ds := by
  induction fuel with
  | zero => intro n ds; simp [Nat.toDigitsCore]
  | succ f ih =>
    intro n ds
    simp only [Nat.toDigitsCore]
    by_cases h : n / 10 = 0
    · simp [h]
    · simp only [h, if_false]
      rw [ih (n / 10) [Nat.digitChar (n % 10)],
        ih (n / 10) (Nat.digitChar (n % 10) :: ds), List.append_assoc]
      rfl

theorem toDigitsCore_fuel (n : Nat) :
    ∀ (fuel fuel' : Nat), n < fuel → n < fuel' →
      Nat.toDigitsCore 10 fuel n [] = Nat.toDigitsCore 10 fuel' n [] := by
  induction n using Nat.strong_induction_on with
  | _ n ih =>
    intro fuel fuel' hf hf'
    obtain ⟨f, rfl⟩ : ∃ f, fuel = f + 1 := ⟨fuel - 1, by omega⟩
    obtain ⟨f', rfl⟩ : ∃ g, fuel' = g + 1 := ⟨fuel' - 1, by omega⟩
    simp only [Nat.toDigitsCore]
    by_cases h : n / 10 = 0
    · simp [h]
    · simp only [h, if_false]
      have hd : n / 10 < n := Nat.div_lt_self (by omega) (by omega)
      rw [toDigitsCore_append f, toDigitsCore_append f',
        ih (n / 10) hd f f' (by omega) (by omega)]

theorem toDigits_of_lt_ten (n : Nat) (h : n < 10) :
    Nat.toDigits 10 n = [Nat.digitChar n] := by
  simp [Nat.toDigits, Nat.toDigitsCore, Nat.div_eq_of_lt h, Nat.mod_eq_of_lt h]

theorem toDigits_step (n : Nat) (h : 10 ≤ n) :
    Nat.toDigits 10 n = Nat.toDigits 10 (n / 10) ++ [Nat.digitChar (n % 10)] := by
  have h0 : ¬ n / 10 = 0 := by omega
  have hd : n / 10 < n := Nat.div_lt_self (by omega) (by omega)
  have step : Nat.toDigitsCore 10 (n + 1) n [] =
      Nat.toDigitsCore 10 n (n / 10) [Nat.digitChar (n % 10)] := by
    rw [Nat.toDigitsCore]
    simp [h0]
  rw [Nat.toDigits, step, toDigitsCore_append n,
    toDigitsCore_fuel (n / 10) n (n / 10 + 1) hd (by omega)]
  rfl

/-- Explicit four-digit decimal form, used to analyse `pad4` on ordinals up
to 9999. -/
def digits4 (n : Nat) : List Char :=
  [Nat.digitChar (n / 1000 % 10), Nat.digitChar (n / 100 % 10),
   Nat.digitChar (n / 10 % 10), Nat.digitChar (n % 10)]

theorem pad4_data_eq (n : Nat) (hn : n ≤ 9999) : (pad4 n).data = digits4 n := by
  rcases Nat.lt_or_ge n 10 with h1 | h1
  · have e3 : n / 1000 % 10 = 0 := by omega
    have e2 : n / 100 % 10 = 0 := by omega
    have e1 : n / 10 % 10 = 0 := by omega
    have e0 : n % 10 = n := by omega
    simp [pad4, digits4, toDigits_of_lt_ten n h1, e3, e2, e1, e0,
      List.replicate, Nat.digitChar]
  · rcases Nat.lt_or_ge n 100 with h2 | h2
    · have e3 : n / 1000 % 10 = 0 := by omega
      have e2 : n / 100 % 10 = 0 := by omega
      have e1 : n / 10 % 10 = n / 10 := by omega
      have hq : n / 10 < 10 := by omega
      rw [pad4]
      simp only [toDigits_step n h1, toDigits_of_lt_ten (n / 10) hq]
      simp [digits4, e3, e2, e1, List.replicate, Nat.digitChar]
    · rcases Nat.lt_or_ge n 1000 with h3 | h3
      · have e3 : n / 1000 % 10 = 0 := by omega
        have e2 : n / 100 % 10 = n / 100 := by omega
        have hq1 : 10 ≤ n / 10 := by omega
        have hq2 : n / 10 / 10 = n / 100 := by omega
        have hq3 : n / 10 % 10 = n / 10 % 10 := rfl
        have hq4 : n / 100 < 10 := by omega
        rw [pad4]
        simp only [toDigits_step n h1, toDigits_step (n / 10) hq1, hq2,
          toDigits_of_lt_ten (n / 100) hq4]
        simp [digits4, e3, e2, List.replicate, Nat.digitChar]
      · have hq1 : 10 ≤ n / 10 := by omega
        have hq2 : n / 10 / 10 = n / 100 := by omega
        have hq3 : 10 ≤ n / 100 := by omega
        have hq4 : n / 100 / 10 = n / 1000 := by omega
        have hq5 : n / 1000 < 10 := by omega
        have e3 : n / 1000 % 10 = n / 1000 := by omega
        rw [pad4]
        simp only [toDigits_step n h1, toDigits_step (n / 10) hq1, hq2,
          toDigits_step (n / 100) hq3, hq4, toDigits_of_lt_ten (n / 1000) hq5]
        simp [digits4, e3, List.replicate]

theorem digitChar_lt_iff :
    ∀ a, a < 10 → ∀ b, b < 10 →
      (Nat.digitChar a < Nat.digitChar b ↔ a < b) := by decide

theorem digitChar_not_lt_of_eq (a b : Nat) (h : a = b) :
    ¬ Nat.digitChar a < Nat.digitChar b := by
  subst h
  exact lt_irrefl _

theorem digits4_lt (a b : Nat) (ha : a ≤ 9999) (hb : b ≤ 9999) (h : a < b) :
    List.lt (digits4 a) (digits4 b) := by
  simp only [digits4]
  rcases Nat.lt_trichotomy (a / 1000 % 10) (b / 1000 % 10) with h3 | h3 | h3
  · exact .head _ _ ((digitChar_lt_iff _ (by omega) _ (by omega)).mpr h3)
  · refine .tail (digitChar_not_lt_of_eq _ _ h3) (digitChar_not_lt_of_eq _ _ h3.symm) ?_
    rcases Nat.lt_trichotomy (a / 100 % 10) (b / 100 % 10) with h2 | h2 | h2
    · exact .head _ _ ((digitChar_lt_iff _ (by omega) _ (by omega)).mpr h2)
    · refine .tail (digitChar_not_lt_of_eq _ _ h2) (digitChar_not_lt_of_eq _ _ h2.symm) ?_
      rcases Nat.lt_trichotomy (a / 10 % 10) (b / 10 % 10) with h1 | h1 | h1
      · exact .head _ _ ((digitChar_lt_iff _ (by omega) _ (by omega)).mpr h1)
      · refine .tail (digitChar_not_lt_of_eq _ _ h1) (digitChar_not_lt_of_eq _ _ h1.symm) ?_
        rcases Nat.lt_trichotomy (a % 10) (b % 10) with h0 | h0 | h0
        · exact .head _ _ ((digitChar_lt_iff _ (by omega) _ (by omega)).mpr h0)
        · exact absurd h (by omega)
        · exact absurd h (by omega)
      · exact absurd h (by omega)
    · exact absurd h (by omega)
  · exact absurd h (by omega)

theorem lexAppendLeft (p a b : List Char) (h : List.lt a b) :
    List.lt (p ++ a) (p ++ b) := by
  induction p with
  | nil => exact h
  | cons c cs ih => exact .tail (lt_irrefl c) (lt_irrefl c) ih

theorem lexAppendRight (s t : List Char) :
    ∀ (a b : List Char), List.lt a b → a.length = b.length →
      List.lt (a ++ s) (b ++ t) := by
  intro a b h
  induction h with
  | nil b bs => intro hlen; simp at hlen
  | head as bs hab => intro _; exact .head _ _ hab
  | tail hnab hnba hlt ih =>
    intro hlen
    exact .tail hnab hnba (ih (by simpa using hlen))

/-- C9: spooled slide filenames sort lexicographically in ordinal order: for
all ordinals `i < j ≤ 9999`, `slide_{:04}.png` of `i` is strictly smaller
than that of `j` in the character-wise lexicographic order on strings. -/
theorem slide_filenames_sorted (i j : Nat) (hij : i < j) (hj : j ≤ 9999) :
    slideFilename i < slideFilename j := by
  have hi : i ≤ 9999 := by omega
  have hlt : List.lt (digits4 i) (digits4 j) := digits4_lt i j hi hj hij
  have hlen : (digits4 i).length = (digits4 j).length := by simp [digits4]
  have h2 : List.lt ((pad4 i).data ++ ".png".data) ((pad4 j).data ++ ".png".data) := by
    rw [pad4_data_eq i hi, pad4_data_eq j hj]
    exact lexAppendRight _ _ _ _ hlt hlen
  have h3 : List.lt (slideFilename i).data (slideFilename j).data := by
    simp only [slideFilename, String.data_append, List.append_assoc]
    exact lexAppendLeft _ _ _ h2
  rw [String.lt_iff_toList_lt]
  exact (List.lt_iff_lex_lt _ _).mp h3

/-- Witness for C9 at ordinals 3 and 7. -/
theorem slide_filenames_sorted_instance :
    3 < 7 ∧ 7 ≤ 9999 ∧ slideFilename 3 < slideFilename 7 :=
  ⟨by decide, by decide, slide_filenames_sorted 3 7 (by decide) (by decide)⟩

/-- Model of `KeynoteBuilder` (`keynote.rs` lines 9-11): the ordered list of
slide image paths; paths are modelled as the strings `add_slide` stores
(`image_path.to_string_lossy().to_string()`). -/
structure KeynoteBuilder where
  slide_images : List String

/-- `KeynoteBuilder::new` (`keynote.rs` lines 15-19). -/
def KeynoteBuilder.new : KeynoteBuilder := ⟨[]⟩

/-- `KeynoteBuilder::add_slide` (`keynote.rs` lines 22-24): pushes the image
path onto `slide_images`. -/
def KeynoteBuilder.add_slide (b : KeynoteBuilder) (image_path : String) :
    KeynoteBuilder :=
  ⟨b.slide_images ++ [image_path]⟩

/-- Quoting of one image path for the generated AppleScript
(`keynote.rs` line 39, `format!("\"{}\"", p)`): the path is wrapped in
double quotes with no escaping of its contents. -/
def quoteImage (p : String) : String := "\"" ++ p ++ "\""

/-- The comma-separated image list interpolated into the script
(`keynote.rs` lines 37-41). -/
def imageListStr (b : KeynoteBuilder) : String :=
  String.intercalate ", " (b.slide_images.map quoteImage)

/-- Decoding of one escape sequence inside an AppleScript string literal.
Modelled from the spec: the script interpreter that reads the literal back
(spec §4.3) is external to the repository; AppleScript string literals
support the backslash escapes for quote, backslash, newline, tab and
carriage return. -/
def decodeEscape (c : Char) : Option Char :=
  if c = '"' then some '"'
  else if c = '\\' then some '\\'
  else if c = 'n' then some '\n'
  else if c = 't' then some '\t'
  else if c = 'r' then some '\r'
  else none

/-- Modelled from the spec: body of an AppleScript string literal as the
script interpreter lexes it — characters up to the first unescaped closing
double quote, escapes decoded; returns the decoded string and the input
remaining after the closing quote, or `none` if the literal never closes. -/
def readLitBody : List Char → Option (List Char × List Char)
  | [] => none
  | '"' :: rest => some ([], rest)
  | '\\' :: [] => none
  | '\\' :: e :: rest =>
    match decodeEscape e with
    | some d => (readLitBody rest).map (fun r => (d :: r.1, r.2))
    | none => none
  | c :: rest => (readLitBody rest).map (fun r => (c :: r.1, r.2))

/-- Modelled from the spec: an AppleScript string literal — an opening
double quote followed by a literal body. -/
def readStringLit : List Char → Option (List Char × List Char)
  | '"' :: rest => readLitBody rest
  | _ => none

/-- C1: the code embeds image paths without escaping (`keynote.rs` line 39),
so for the path `/tmp/a"b.png` — which contains a double quote — the
embedded literal, read back by the script interpreter's lexer, closes at the
embedded quote: it yields `/tmp/a` followed by the stray characters
`b.png"`, not the original path. The claimed round-trip identity fails. -/
theorem quoted_path_roundtrip_fails :
    readStringLit (quoteImage "/tmp/a\"b.png").data =
      some ("/tmp/a".data, "b.png\"".data) ∧
    "/tmp/a" ≠ "/tmp/a\"b.png" := by
  exact ⟨by decide, by decide⟩

/-- Outcome of the `osascript` invocation as `build` observes it
(`keynote.rs` lines 86-90): `ran exitSuccess stderr` is `Command::output()`
completing with the given exit status and captured standard error;
`spawnFailure` is `.output()` itself failing, which `build` wraps with the
context `"Falha ao executar osascript"`. -/
inductive OsaResult where
  | ran (exitSuccess : Bool) (stderr : String)
  | spawnFailure (msg : String)

/-- Model of `KeynoteBuilder::build` (`keynote.rs` lines 27-100): fails
immediately when no slide was added; otherwise runs `osascript` (the
returned boolean records that the invocation was performed); a non-zero
exit becomes an error whose message is the permissions hint
`"Erro no Keynote (Verifique permissões de acesso): "` followed verbatim by
the captured stderr. -/
def KeynoteBuilder.build (b : KeynoteBuilder) (output_path : String)
    (osa : OsaResult) : Except String Unit × Bool :=
  if b.slide_images.isEmpty then
    (.error "Nenhum slide foi adicionado", false)
  else
    match osa with
    | .spawnFailure msg => (.error ("Falha ao executar osascript: " ++ msg), true)
    | .ran ok stderr =>
      if ok then (.ok (), true)
      else (.error ("Erro no Keynote (Verifique permissões de acesso): " ++ stderr), true)

/-- C7: invoked on an empty image list, `build` fails with the
`"Nenhum slide foi adicionado"` error and the osascript invocation is never
performed. -/
theorem build_empty_no_invocation (b : KeynoteBuilder) (out : String)
    (osa : OsaResult) (h : b.slide_images = []) :
    b.build out osa = (.error "Nenhum slide foi adicionado", false) := by
  simp [KeynoteBuilder.build, h]

/-- Witness for C7: a fresh builder has no slides, and `build` on it fails
without invoking osascript. -/
theorem build_empty_no_invocation_instance :
    KeynoteBuilder.new.slide_images = [] ∧
    KeynoteBuilder.new.build "/tmp/out.key" (.ran true "") =
      (.error "Nenhum slide foi adicionado", false) :=
  ⟨rfl, build_empty_no_invocation KeynoteBuilder.new "/tmp/out.key" (.ran true "") rfl⟩

/-- C8: with at least one slide and the osascript process completing,
`build` succeeds iff the exit status is success, and on non-zero exit its
error message is exactly the permissions hint followed verbatim by the
captured stderr. -/
theorem build_exit_status (b : KeynoteBuilder) (out : String) (ok : Bool)
    (stderr : String) (h : b.slide_images ≠ []) :
    ((b.build out (.ran ok stderr)).1 = .ok () ↔ ok = true) ∧
    (ok = false →
      (b.build out (.ran ok stderr)).1 =
        .error ("Erro no Keynote (Verifique permissões de acesso): " ++ stderr)) := by
  have hne : ¬ b.slide_images.isEmpty := by simpa [List.isEmpty_iff] using h
  cases ok <;> simp [KeynoteBuilder.build, hne]

/-- Witness for C8, the claim's concrete scenario: stderr `"not authorized"`
on a non-zero exit yields the permissions hint followed by
`"not authorized"`. -/
theorem build_exit_status_instance :
    (⟨["/tmp/s.png"]⟩ : KeynoteBuilder).slide_images ≠ [] ∧
    ((⟨["/tmp/s.png"]⟩ : KeynoteBuilder).build "/tmp/o.key"
        (.ran false "not authorized")).1 =
      .error ("Erro no Keynote (Verifique permissões de acesso): " ++ "not authorized") := by
  have h : (⟨["/tmp/s.png"]⟩ : KeynoteBuilder).slide_images ≠ [] := by simp
  exact ⟨h, (build_exit_status ⟨["/tmp/s.png"]⟩ "/tmp/o.key" false "not authorized" h).2 rfl⟩

/-- An image placed on a slide by the generated script, with the geometry
the script assigns (`keynote.rs` lines 69-72): source file, width, height
and position in the slide's coordinate space. -/
structure KImage where
  file : String
  width : Int
  height : Int
  position : Int × Int

/-- One slide of the Keynote document: the images placed on it, in order. -/
structure KSlide where
  images : List KImage

/-- The Keynote document the generated script drives: its slides in order. -/
structure KDoc where
  slides : List KSlide

/-- Observable commands the generated AppleScript issues to Keynote, in
order. `activate` would bring Keynote to the foreground; the script's only
occurrence of it is inside the comment on `keynote.rs` line 50
(`-- activate -- Removido para não trazer para frente`), so the
transliteration never emits it. -/
inductive KEvent where
  | activate
  | makeDocument
  | placeImage (file : String)
  | save (path : String)
deriving DecidableEq

/-- Result of `make new document` (`keynote.rs` line 51): a fresh Keynote
document with its single pre-existing blank slide — the `slide 1 of theDoc`
that the script populates for the first image. -/
def newDocument : KDoc := ⟨[⟨[]⟩]⟩

/-- One iteration of the script's repeat loop (`keynote.rs` lines 56-74),
with the AppleScript 1-based `i` modelled 0-based as `idx`: `idx = 0`
selects the document's pre-existing `slide 1`, any later index makes a new
slide at the end of the slides; the image is then placed on the current
slide covering the full canvas — width = slideWidth, height = slideHeight,
position = (0, 0). -/
def scriptStep (w h : Int) (doc : KDoc) (idx : Nat) (path : String) : KDoc :=
  let img : KImage := ⟨path, w, h, (0, 0)⟩
  if idx = 0 then
    ⟨KSlide.mk ((doc.slides.headD ⟨[]⟩).images ++ [img]) :: doc.slides.tail⟩
  else
    ⟨doc.slides ++ [⟨[img]⟩]⟩

/-- The script's repeat loop over the image list (`keynote.rs` lines
56-74), recording one `placeImage` command per iteration in order. -/
def scriptLoop (w h : Int) : KDoc → Nat → List String → KDoc × List KEvent
  | doc, _, [] => (doc, [])
  | doc, idx, p :: rest =>
    let doc' := scriptStep w h doc idx p
    let r := scriptLoop w h doc' (idx + 1) rest
    (r.1, .placeImage p :: r.2)

/-- Transliteration of the whole AppleScript program that `build` generates
(`keynote.rs` lines 44-79): make a new document (whose width and height are
`w × h`), run the repeat loop over the image list from the first index, and
finally save the document to the output path. Returns the final document
and the ordered command trace. -/
def runScript (images : List String) (outputPath : String) (w h : Int) :
    KDoc × List KEvent :=
  let r := scriptLoop w h newDocument 0 images
  (r.1, .makeDocument :: (r.2 ++ [.save outputPath]))

theorem scriptLoop_pos (w h : Int) :
    ∀ (ps : List String) (doc : KDoc) (idx : Nat), idx ≠ 0 →
      (scriptLoop w h doc idx ps).1.slides =
        doc.slides ++ ps.map (fun p => ⟨[⟨p, w, h, (0, 0)⟩]⟩) ∧
      (scriptLoop w h doc idx ps).2 = ps.map KEvent.placeImage
  | [], doc, idx, _ => by simp [scriptLoop]
  | p :: rest, doc, idx, hidx => by
    have hstep : (scriptStep w h doc idx p).slides =
        doc.slides ++ [⟨[⟨p, w, h, (0, 0)⟩]⟩] := by
      simp [scriptStep, hidx]
    have ih := scriptLoop_pos w h rest (scriptStep w h doc idx p) (idx + 1) (by omega)
    refine ⟨?_, ?_⟩
    · simp only [scriptLoop, ih.1, hstep, List.map, List.append_assoc,
        List.singleton_append]
    · simp only [scriptLoop, ih.2, List.map]

/-- C6: for every non-empty ordered image list, the generated script makes a
new presentation document; the first image populates the document's
pre-existing first slide (no extra blank slide: the final document has
exactly one slide per image, in list order, each holding exactly the one
image placed at position (0, 0) with width and height equal to the slide's);
the save to the destination path is the single last command, issued only
after every placement; and no `activate` command (which would bring Keynote
to the foreground) is ever issued. -/
theorem script_semantics (images : List String) (out : String) (w h : Int)
    (hne : images ≠ []) :
    (runScript images out w h).1.slides =
      images.map (fun p => ⟨[⟨p, w, h, (0, 0)⟩]⟩) ∧
    (runScript images out w h).2 =
      .makeDocument :: (images.map KEvent.placeImage ++ [.save out]) ∧
    KEvent.activate ∉ (runScript images out w h).2 := by
  obtain ⟨p, rest, rfl⟩ : ∃ p rest, images = p :: rest := by
    cases images with
    | nil => exact absurd rfl hne
    | cons p rest => exact ⟨p, rest, rfl⟩
  have hfirst : scriptStep w h newDocument 0 p = ⟨[⟨[⟨p, w, h, (0, 0)⟩]⟩]⟩ := by
    simp [scriptStep, newDocument]
  have ih := scriptLoop_pos w h rest (scriptStep w h newDocument 0 p) 1 (by omega)
  have hslides : (runScript (p :: rest) out w h).1.slides =
      (p :: rest).map (fun q => ⟨[⟨q, w, h, (0, 0)⟩]⟩) := by
    show (scriptLoop w h (scriptStep w h newDocument 0 p) 1 rest).1.slides = _
    rw [ih.1, hfirst]
    simp
  have hevents : (runScript (p :: rest) out w h).2 =
      .makeDocument :: ((p :: rest).map KEvent.placeImage ++ [.save out]) := by
    show KEvent.makeDocument ::
        ((KEvent.placeImage p :: (scriptLoop w h (scriptStep w h newDocument 0 p) 1 rest).2)
          ++ [KEvent.save out]) = _
    rw [ih.2]
    simp
  refine ⟨hslides, hevents, ?_⟩
  rw [hevents]
  simp

/-- Witness for C6 on a concrete two-image list. -/
theorem script_semantics_instance :
    (["/tmp/a.png", "/tmp/b.png"] : List String) ≠ [] ∧
    (runScript ["/tmp/a.png", "/tmp/b.png"] "/tmp/o.key" 1024 768).1.slides =
      [⟨[⟨"/tmp/a.png", 1024, 768, (0, 0)⟩]⟩, ⟨[⟨"/tmp/b.png", 1024, 768, (0, 0)⟩]⟩] ∧
    (runScript ["/tmp/a.png", "/tmp/b.png"] "/tmp/o.key" 1024 768).2 =
      [.makeDocument, .placeImage "/tmp/a.png", .placeImage "/tmp/b.png",
        .save "/tmp/o.key"] ∧
    KEvent.activate ∉ (runScript ["/tmp/a.png", "/tmp/b.png"] "/tmp/o.key" 1024 768).2 := by
  have hne : (["/tmp/a.png", "/tmp/b.png"] : List String) ≠ [] := by simp
  have h := script_semantics ["/tmp/a.png", "/tmp/b.png"] "/tmp/o.key" 1024 768 hne
  exact ⟨hne, h.1, h.2.1, h.2.2⟩

/-- The shared status record `AppStatus` (`main.rs` lines 106-112); the f32
`progress` field is modelled in ℚ. -/
structure AppStatus where
  message : String
  progress : ℚ
  is_error : Bool
  is_success : Bool
deriving DecidableEq

/-- Observable actions of one conversion job, in program order: writes of
the shared `is_converting` flag and status, thread spawn, workspace
creation, per-page PNG writes, the osascript invocation and workspace
removal. A `status s` event records the full status after one locked
mutation block. -/
inductive Ev where
  | setConverting (b : Bool)
  | status (s : AppStatus)
  | spawn
  | createDir (path : String)
  | savePng (ordinal : Nat) (path : String)
  | osaRun
  | removeDir (path : String)
deriving DecidableEq

/-- Boolean test for workspace-removal events. -/
def Ev.isRemoveDir : Ev → Bool
  | .removeDir _ => true
  | .setConverting _ => false
  | .status _ => false
  | .spawn => false
  | .createDir _ => false
  | .savePng _ _ => false
  | .osaRun => false

/-- Ordinal and path of a PNG-write event, if any. -/
def Ev.savePngData : Ev → Option (Nat × String)
  | .savePng i p => some (i, p)
  | .setConverting _ => none
  | .status _ => none
  | .spawn => none
  | .createDir _ => none
  | .osaRun => none
  | .removeDir _ => none

/-- Progress value of a status-write event, if any. -/
def Ev.progressOf : Ev → Option ℚ
  | .status s => some s.progress
  | .setConverting _ => none
  | .spawn => none
  | .createDir _ => none
  | .savePng _ _ => none
  | .osaRun => none
  | .removeDir _ => none

/-- Status record of a status-write event, if any. -/
def Ev.statusOf : Ev → Option AppStatus
  | .status s => some s
  | .setConverting _ => none
  | .spawn => none
  | .createDir _ => none
  | .savePng _ _ => none
  | .osaRun => none
  | .removeDir _ => none

/-- Progress values carried by the status writes of a trace, in order. -/
def progressSeq (evs : List Ev) : List ℚ := evs.filterMap Ev.progressOf

/-- Status records carried by the status writes of a trace, in order. -/
def statusSeq (evs : List Ev) : List AppStatus := evs.filterMap Ev.statusOf

/-- Environment of one `convert_pdf_to_keynote` call (`main.rs` lines
374-440): the outcome of every external operation the function performs.
`now` is `SystemTime::now().duration_since(UNIX_EPOCH)` in nanoseconds,
`createDirOk` is `fs::create_dir_all` on the workspace, `newProcessor` is
`PdfProcessor::new`, `openOk`/`pages`/`pageOk` feed `render_pages`,
`saveOk i` is the PNG write for ordinal `i`, and `osa` is the osascript
invocation outcome. -/
structure ConvEnv where
  now : Except String Nat
  createDirOk : Except String Unit
  newProcessor : Except String Unit
  openOk : Bool
  pages : List PdfPage
  pageOk : Nat → Bool
  saveOk : Nat → Except String Unit
  osa : OsaResult

/-- The per-page save loop of `convert_pdf_to_keynote` (`main.rs` lines
406-418): before each write the status is updated with the message
`"Processando página {i+1} de {total}..."` and progress
`0.2 + 0.5 * (i / total)`; then the PNG is written to
`<tempDir>/slide_{:04}.png`; the first failing write aborts the job via
`?`. Returns the collected paths (on success), the status after the last
write, and the events in order. -/
def spoolLoop (tempDir : String) (total : Nat) (saveOk : Nat → Except String Unit) :
    List RenderedImage → Nat → AppStatus →
      Except String (List String) × AppStatus × List Ev
  | [], _, st => (.ok [], st, [])
  | _ :: rest, i, st =>
    let prog : ℚ := 1/5 + 1/2 * ((i : ℚ) / (total : ℚ))
    let st1 : AppStatus := { st with
      message := "Processando página " ++ toString (i + 1) ++ " de " ++
        toString total ++ "...",
      progress := prog }
    let path := tempDir ++ "/" ++ slideFilename i
    match saveOk i with
    | .error e => (.error e, st1, [.status st1])
    | .ok _ =>
      let r := spoolLoop tempDir total saveOk rest (i + 1) st1
      (r.1.map (fun ps => path :: ps), r.2.1, .status st1 :: .savePng i path :: r.2.2)

/-- Model of `convert_pdf_to_keynote` (`main.rs` lines 374-440): mint the
workspace name `/tmp/pdf2key_{nanos}`, create it, write status
("Renderizando páginas...", 0.1), load pdfium, render at dpi 200, spool
each page, write status ("Criando apresentação no Keynote...", 0.8), build
the Keynote presentation, and — only on this all-success path — attempt the
best-effort workspace removal of line 436; every earlier failure returns
through `?` without reaching it. Returns the `Result`, the status as last
written, and the ordered event trace. -/
def convert_pdf_to_keynote (env : ConvEnv) (output_path : String)
    (st0 : AppStatus) : Except String Unit × AppStatus × List Ev :=
  match env.now with
  | .error e => (.error e, st0, [])
  | .ok ts =>
    let tempDir := "/tmp/pdf2key_" ++ toString ts
    match env.createDirOk with
    | .error e => (.error e, st0, [])
    | .ok _ =>
      let st1 : AppStatus := { st0 with
        message := "Renderizando páginas...", progress := 1/10 }
      let evs1 : List Ev := [.createDir tempDir, .status st1]
      match env.newProcessor with
      | .error e => (.error e, st1, evs1)
      | .ok _ =>
        match render_pages env.openOk env.pages 200 env.pageOk with
        | .error e => (.error e, st1, evs1)
        | .ok images =>
          let r := spoolLoop tempDir images.length env.saveOk images 0 st1
          match r.1 with
          | .error e => (.error e, r.2.1, evs1 ++ r.2.2)
          | .ok image_paths =>
            let st3 : AppStatus := { r.2.1 with
              message := "Criando apresentação no Keynote...", progress := 4/5 }
            let b := image_paths.foldl (fun bb p => bb.add_slide p) KeynoteBuilder.new
            let br := b.build output_path env.osa
            match br.1 with
            | .error e =>
              (.error e, st3,
                evs1 ++ r.2.2 ++ [.status st3] ++ (if br.2 then [.osaRun] else []))
            | .ok _ =>
              (.ok (), st3,
                evs1 ++ r.2.2 ++ [.status st3, .osaRun, .removeDir tempDir])

/-- The status `start_conversion` writes before spawning the worker
(`main.rs` lines 341-347): flags cleared, in-flight message, progress 0. -/
def resetStatus : AppStatus :=
  { message := "Inicializando...", progress := 0, is_error := false, is_success := false }

/-- Model of `Pdf2KeyApp::start_conversion` (`main.rs` lines 333-371)
together with the worker thread it spawns: set the in-progress flag, reset
the shared status, spawn the worker; the worker runs
`convert_pdf_to_keynote`, clears the in-progress flag and writes the
terminal status — on success `"Concluído!"` with progress 1.0 and the
success flag, on failure `"Erro: {e}"` with the error flag set and the
progress field left at its last written value. Returns the terminal status
and the full ordered event trace of the job. -/
def start_conversion (env : ConvEnv) (output_path : String) :
    AppStatus × List Ev :=
  let r := convert_pdf_to_keynote env output_path resetStatus
  let stT : AppStatus :=
    match r.1 with
    | .ok _ =>
      { message := "Concluído!", progress := 1, is_error := false, is_success := true }
    | .error e =>
      { r.2.1 with message := "Erro: " ++ e, is_error := true, is_success := false }
  (stT, .setConverting true :: .status resetStatus :: .spawn ::
    (r.2.2 ++ [.setConverting false, .status stT]))

/-- C10: whenever a new conversion is started, the very first events are the
in-progress flag write and the status reset — error flag false, success
flag false, progress 0, in-flight message "Inicializando..." — and only
then the worker spawn; every worker event comes after, so an observer
polling after the job starts never sees a previous job's terminal state. -/
theorem start_conversion_resets_before_spawn (env : ConvEnv) (out : String) :
    (∃ tail, (start_conversion env out).2 =
      Ev.setConverting true :: Ev.status resetStatus :: Ev.spawn :: tail) ∧
    resetStatus.is_error = false ∧ resetStatus.is_success = false ∧
    resetStatus.progress = 0 ∧ resetStatus.message = "Inicializando..." :=
  ⟨⟨_, rfl⟩, rfl, rfl, rfl, rfl⟩

theorem render_pages_length (openOk : Bool) (pages : List PdfPage) (dpi : ℚ)
    (pageOk : Nat → Bool) (imgs : List RenderedImage)
    (h : render_pages openOk pages dpi pageOk = .ok imgs) :
    imgs.length = pages.length := by
  by_cases ho : openOk
  · rw [render_pages, if_pos ho] at h
    rw [renderLoop_ok_eq dpi pageOk pages 0 imgs h, List.length_map]
  · rw [render_pages, if_neg ho] at h
    cases h

theorem spoolLoop_ok_data (tempDir : String) (total : Nat)
    (saveOk : Nat → Except String Unit) :
    ∀ (imgs : List RenderedImage) (i : Nat) (st : AppStatus) (ps : List String),
      (spoolLoop tempDir total saveOk imgs i st).1 = .ok ps →
      ps = (List.range' i imgs.length).map
        (fun j => tempDir ++ "/" ++ slideFilename j) ∧
      (spoolLoop tempDir total saveOk imgs i st).2.2.filterMap Ev.savePngData =
        (List.range' i imgs.length).map
          (fun j => (j, tempDir ++ "/" ++ slideFilename j))
  | [], i, st, ps, h => by
    simp only [spoolLoop, Except.ok.injEq] at h
    subst h
    simp [spoolLoop, List.range']
  | img :: rest, i, st, ps, h => by
    cases hs : saveOk i with
    | error e =>
      simp only [spoolLoop, hs] at h
      cases h
    | ok u =>
      simp only [spoolLoop, hs] at h ⊢
      cases hr : (spoolLoop tempDir total saveOk rest (i + 1)
          { st with
            message := "Processando página " ++ toString (i + 1) ++ " de " ++
              toString total ++ "...",
            progress := 1/5 + 1/2 * ((i : ℚ) / (total : ℚ)) }).1 with
      | error e => rw [hr] at h; cases h
      | ok ps' =>
        rw [hr] at h
        have ih := spoolLoop_ok_data tempDir total saveOk rest (i + 1) _ ps' hr
        simp only [Except.map, Except.ok.injEq] at h
        subst h
        rw [List.length_cons, List.range'_succ]
        refine ⟨?_, ?_⟩
        · simp only [List.map, ih.1]
        · simp only [List.filterMap, Ev.savePngData, ih.2, List.map]

theorem convert_ok_shape (env : ConvEnv) (out : String) (st0 : AppStatus) (ts : Nat)
    (hts : env.now = .ok ts)
    (hok : (convert_pdf_to_keynote env out st0).1 = .ok ()) :
    ∃ images paths,
      render_pages env.openOk env.pages 200 env.pageOk = .ok images ∧
      (spoolLoop ("/tmp/pdf2key_" ++ toString ts) images.length env.saveOk images 0
        { st0 with message := "Renderizando páginas...", progress := 1/10 }).1 =
          .ok paths ∧
      (convert_pdf_to_keynote env out st0).2.2 =
        [.createDir ("/tmp/pdf2key_" ++ toString ts),
         .status { st0 with message := "Renderizando páginas...", progress := 1/10 }] ++
        (spoolLoop ("/tmp/pdf2key_" ++ toString ts) images.length env.saveOk images 0
          { st0 with message := "Renderizando páginas...", progress := 1/10 }).2.2 ++
        [.status { (spoolLoop ("/tmp/pdf2key_" ++ toString ts) images.length env.saveOk
            images 0
            { st0 with message := "Renderizando páginas...", progress := 1/10 }).2.1 with
              message := "Criando apresentação no Keynote...", progress := 4/5 },
         .osaRun, .removeDir ("/tmp/pdf2key_" ++ toString ts)] := by
  cases hcd : env.createDirOk with
  | error e =>
    simp only [convert_pdf_to_keynote, hts, hcd] at hok
    exact Except.noConfusion hok
  | ok u =>
    cases hrp : render_pages env.openOk env.pages 200 env.pageOk with
    | error e =>
      cases hnp : env.newProcessor with
      | error e2 =>
        simp only [convert_pdf_to_keynote, hts, hcd, hnp] at hok
        exact Except.noConfusion hok
      | ok v =>
        simp only [convert_pdf_to_keynote, hts, hcd, hnp, hrp] at hok
        exact Except.noConfusion hok
    | ok images =>
      cases hnp : env.newProcessor with
      | error e2 =>
        simp only [convert_pdf_to_keynote, hts, hcd, hnp] at hok
        exact Except.noConfusion hok
      | ok v =>
        cases hsp : (spoolLoop ("/tmp/pdf2key_" ++ toString ts) images.length env.saveOk
            images 0
            { st0 with message := "Renderizando páginas...", progress := 1/10 }).1 with
        | error e =>
          simp only [convert_pdf_to_keynote, hts, hcd, hnp, hrp, hsp] at hok
          exact Except.noConfusion hok
        | ok paths =>
          refine ⟨images, paths, rfl, hsp, ?_⟩
          cases hbr : ((paths.foldl (fun bb p => bb.add_slide p) KeynoteBuilder.new).build
              out env.osa).1 with
          | error e =>
            simp only [convert_pdf_to_keynote, hts, hcd, hnp, hrp, hsp, hbr] at hok
            exact Except.noConfusion hok
          | ok w =>
            simp only [convert_pdf_to_keynote, hts, hcd, hnp, hrp, hsp, hbr]

/-- C5: a successful conversion spools exactly one slide file per page of
the document: the PNG-write events carry ordinals `0 .. N-1` (`N` the page
count), gapless and increasing, in page order, each with path
`<workspace>/slide_{:04}.png`. -/
theorem spooled_slides_gapless (env : ConvEnv) (out : String) (st0 : AppStatus)
    (ts : Nat) (hts : env.now = .ok ts)
    (hok : (convert_pdf_to_keynote env out st0).1 = .ok ()) :
    (convert_pdf_to_keynote env out st0).2.2.filterMap Ev.savePngData =
      (List.range env.pages.length).map
        (fun i => (i, "/tmp/pdf2key_" ++ toString ts ++ "/" ++ slideFilename i)) := by
  obtain ⟨images, paths, hrp, hsp, hevs⟩ := convert_ok_shape env out st0 ts hts hok
  have hlen : images.length = env.pages.length := render_pages_length _ _ _ _ _ hrp
  have hdata := (spoolLoop_ok_data _ _ _ images 0 _ paths hsp).2
  rw [hevs, List.filterMap_append, List.filterMap_append, hdata, List.range_eq_range',
    hlen]
  simp only [List.filterMap_cons, List.filterMap_nil, Ev.savePngData, List.nil_append,
    List.append_nil]

/-- Decidable equality for build and conversion results, used to evaluate
the model at concrete environments. -/
instance : DecidableEq (Except String Unit) := fun a b =>
  match a, b with
  | .ok x, .ok y =>
    match decEq x y with
    | isTrue h => isTrue (congrArg Except.ok h)
    | isFalse h => isFalse (fun he => h (Except.ok.inj he))
  | .error x, .error y =>
    match decEq x y with
    | isTrue h => isTrue (congrArg Except.error h)
    | isFalse h => isFalse (fun he => h (Except.error.inj he))
  | .ok x, .error y => isFalse (fun he => Except.noConfusion he)
  | .error x, .ok y => isFalse (fun he => Except.noConfusion he)

/-- Environment in which every external operation succeeds: timestamp 7,
two US-Letter pages, every PNG write succeeding, osascript exiting 0. -/
def envAllOk : ConvEnv :=
  { now := .ok 7, createDirOk := .ok (), newProcessor := .ok (), openOk := true,
    pages := [⟨612, 792⟩, ⟨612, 792⟩], pageOk := fun _ => true,
    saveOk := fun _ => .ok (), osa := .ran true "" }

/-- Environment identical to `envAllOk` except that the osascript
invocation exits non-zero (stderr "not authorized"), so assembly fails. -/
def envAsmFail : ConvEnv :=
  { now := .ok 7, createDirOk := .ok (), newProcessor := .ok (), openOk := true,
    pages := [⟨612, 792⟩, ⟨612, 792⟩], pageOk := fun _ => true,
    saveOk := fun _ => .ok (), osa := .ran false "not authorized" }

/-- Witness for C5 in `envAllOk`: a 2-page document spools exactly
ordinals 0 and 1 with their zero-padded paths. -/
theorem spooled_slides_gapless_instance :
    envAllOk.now = .ok 7 ∧
    (convert_pdf_to_keynote envAllOk "/tmp/o.key" resetStatus).1 = .ok () ∧
    (convert_pdf_to_keynote envAllOk "/tmp/o.key" resetStatus).2.2.filterMap
        Ev.savePngData =
      (List.range envAllOk.pages.length).map
        (fun i => (i, "/tmp/pdf2key_" ++ toString 7 ++ "/" ++ slideFilename i)) := by
  have h1 : (convert_pdf_to_keynote envAllOk "/tmp/o.key" resetStatus).1 = .ok () := by
    decide
  exact ⟨rfl, h1, spooled_slides_gapless envAllOk "/tmp/o.key" resetStatus 7 rfl h1⟩

theorem spoolLoop_no_removeDir (tempDir : String) (total : Nat)
    (saveOk : Nat → Except String Unit) :
    ∀ (imgs : List RenderedImage) (i : Nat) (st : AppStatus),
      ((spoolLoop tempDir total saveOk imgs i st).2.2.all fun e => !e.isRemoveDir) = true
  | [], _, _ => rfl
  | img :: rest, i, st => by
    cases hs : saveOk i with
    | error e => simp [spoolLoop, hs, Ev.isRemoveDir]
    | ok u =>
      simp only [spoolLoop, hs, List.all_cons, Ev.isRemoveDir, Bool.not_false,
        Bool.true_and]
      exact spoolLoop_no_removeDir tempDir total saveOk rest (i + 1) _

/-- C2 (counterexample): in `envAsmFail` the assembly phase fails with a
non-zero osascript exit, `convert_pdf_to_keynote` returns early through
`?`, and no workspace-removal event is ever emitted — the temporary
workspace is not removed after an assembly failure. -/
theorem cleanup_skipped_on_failure_counterexample :
    (convert_pdf_to_keynote envAsmFail "/tmp/o.key" resetStatus).1 ≠ .ok () ∧
    ((convert_pdf_to_keynote envAsmFail "/tmp/o.key" resetStatus).2.2.all
      fun e => !e.isRemoveDir) = true := by
  exact ⟨by decide, by decide⟩

theorem getLast_of_append3 (l1 l2 : List Ev) (a b c : Ev) :
    (l1 ++ l2 ++ [a, b, c]).getLast? = some c := by
  rw [show ([a, b, c] : List Ev) = [a, b] ++ [c] from rfl]
  simp only [← List.append_assoc]
  rw [List.getLast?_concat]

/-- C2 (amended): workspace cleanup is tied to success: when
`convert_pdf_to_keynote` succeeds, the best-effort removal attempt of the
temporary workspace is the very last event, issued after the assembly
invocation; on any failure — in particular an assembly failure — the
function returns early through `?` and no removal is attempted, so the
temporary workspace is left behind. -/
theorem cleanup_only_on_success (env : ConvEnv) (out : String) (st0 : AppStatus)
    (ts : Nat) (hts : env.now = .ok ts) :
    ((convert_pdf_to_keynote env out st0).1 = .ok () →
      (convert_pdf_to_keynote env out st0).2.2.getLast? =
        some (.removeDir ("/tmp/pdf2key_" ++ toString ts))) ∧
    ((convert_pdf_to_keynote env out st0).1 ≠ .ok () →
      ((convert_pdf_to_keynote env out st0).2.2.all fun e => !e.isRemoveDir) = true) := by
  constructor
  · intro hok
    obtain ⟨images, paths, hrp, hsp, hevs⟩ := convert_ok_shape env out st0 ts hts hok
    rw [hevs]
    exact getLast_of_append3 _ _ _ _ _
  · intro hbad
    cases hcd : env.createDirOk with
    | error e =>
      simp only [convert_pdf_to_keynote, hts, hcd]
      rfl
    | ok u =>
      cases hrp : render_pages env.openOk env.pages 200 env.pageOk with
      | error e =>
        cases hnp : env.newProcessor with
        | error e2 =>
          simp only [convert_pdf_to_keynote, hts, hcd, hnp]
          rfl
        | ok v =>
          simp only [convert_pdf_to_keynote, hts, hcd, hnp, hrp]
          rfl
      | ok images =>
        cases hnp : env.newProcessor with
        | error e2 =>
          simp only [convert_pdf_to_keynote, hts, hcd, hnp]
          rfl
        | ok v =>
          cases hsp : (spoolLoop ("/tmp/pdf2key_" ++ toString ts) images.length env.saveOk
              images 0
              { st0 with message := "Renderizando páginas...", progress := 1/10 }).1 with
          | error e =>
            simp only [convert_pdf_to_keynote, hts, hcd, hnp, hrp, hsp]
            rw [List.all_append, spoolLoop_no_removeDir]
            rfl
          | ok paths =>
            cases hbr : ((paths.foldl (fun bb p => bb.add_slide p) KeynoteBuilder.new).build
                out env.osa).1 with
            | ok w =>
              simp only [convert_pdf_to_keynote, hts, hcd, hnp, hrp, hsp, hbr] at hbad
              exact absurd rfl hbad
            | error e =>
              simp only [convert_pdf_to_keynote, hts, hcd, hnp, hrp, hsp, hbr]
              simp only [List.all_append]
              rw [spoolLoop_no_removeDir]
              cases h2 : ((paths.foldl (fun bb p => bb.add_slide p) KeynoteBuilder.new).build
                  out env.osa).2 <;> rfl

/-- Witness for C2 (amended) in `envAllOk`: the successful job's final event
is the removal attempt of `/tmp/pdf2key_7`. -/
theorem cleanup_only_on_success_instance :
    envAllOk.now = .ok 7 ∧
    (convert_pdf_to_keynote envAllOk "/tmp/o.key" resetStatus).1 = .ok () ∧
    (convert_pdf_to_keynote envAllOk "/tmp/o.key" resetStatus).2.2.getLast? =
      some (.removeDir ("/tmp/pdf2key_" ++ toString 7)) := by
  have h1 : (convert_pdf_to_keynote envAllOk "/tmp/o.key" resetStatus).1 = .ok () := by
    decide
  exact ⟨rfl, h1, (cleanup_only_on_success envAllOk "/tmp/o.key" resetStatus 7 rfl).1 h1⟩

theorem mem_of_getLast?_eq {l : List ℚ} {a : ℚ} (h : l.getLast? = some a) : a ∈ l := by
  obtain ⟨hne, rfl⟩ := List.mem_getLast?_eq_getLast (l := l) (x := a)
    (by rw [Option.mem_def, h])
  exact List.getLast_mem hne

theorem spoolProg_mono (total i j : Nat) (hij : i ≤ j) :
    (1 : ℚ)/5 + 1/2 * ((i : ℚ) / (total : ℚ)) ≤
      1/5 + 1/2 * ((j : ℚ) / (total : ℚ)) := by
  rcases Nat.eq_zero_or_pos total with h | h
  · subst h
    simp
  · have hpos : (0 : ℚ) < total := by exact_mod_cast h
    have hd : (i : ℚ) / total ≤ (j : ℚ) / total :=
      (div_le_div_iff_of_pos_right hpos).mpr (by exact_mod_cast hij)
    linarith

theorem spoolProg_lt (total i : Nat) (h : i < total) :
    (1 : ℚ)/5 + 1/2 * ((i : ℚ) / (total : ℚ)) < 7/10 := by
  have hpos : (0 : ℚ) < total := by
    have : 0 < total := by omega
    exact_mod_cast this
  have h1 : (i : ℚ) / total < 1 := (div_lt_one hpos).mpr (by exact_mod_cast h)
  linarith

theorem spoolLoop_progress (tempDir : String) (total : Nat)
    (saveOk : Nat → Except String Unit) :
    ∀ (imgs : List RenderedImage) (i : Nat) (st : AppStatus),
      i + imgs.length ≤ total →
      st.progress ≤ 1/5 + 1/2 * ((i : ℚ) / (total : ℚ)) →
      List.Chain' (· ≤ ·)
        (st.progress :: progressSeq (spoolLoop tempDir total saveOk imgs i st).2.2) ∧
      (∀ q ∈ progressSeq (spoolLoop tempDir total saveOk imgs i st).2.2, q < 7/10) ∧
      (st.progress ::
          progressSeq (spoolLoop tempDir total saveOk imgs i st).2.2).getLast? =
        some (spoolLoop tempDir total saveOk imgs i st).2.1.progress
  | [], i, st, _, _ => by
    simp [spoolLoop, progressSeq]
  | img :: rest, i, st, hlen, hle => by
    have hit : i < total := by
      have := List.length_cons img rest
      omega
    cases hs : saveOk i with
    | error e =>
      simp only [spoolLoop, hs, progressSeq, List.filterMap_cons, Ev.progressOf,
        List.filterMap_nil]
      refine ⟨?_, ?_, rfl⟩
      · exact List.chain'_cons.mpr ⟨hle, List.chain'_singleton _⟩
      · intro q hq
        simp only [List.mem_singleton] at hq
        subst hq
        exact spoolProg_lt total i hit
    | ok u =>
      have hrec := spoolLoop_progress tempDir total saveOk rest (i + 1)
        { st with
          message := "Processando página " ++ toString (i + 1) ++ " de " ++
            toString total ++ "...",
          progress := 1/5 + 1/2 * ((i : ℚ) / (total : ℚ)) }
        (by simp at hlen ⊢; omega)
        (spoolProg_mono total i (i + 1) (by omega))
      simp only [spoolLoop, hs, progressSeq, List.filterMap_cons, Ev.progressOf] at hrec ⊢
      refine ⟨?_, ?_, ?_⟩
      · exact List.chain'_cons.mpr ⟨hle, hrec.1⟩
      · intro q hq
        simp only [List.mem_cons] at hq
        rcases hq with hq | hq
        · subst hq
          exact spoolProg_lt total i hit
        · exact hrec.2.1 q hq
      · rw [List.getLast?_cons_cons]
        exact hrec.2.2


theorem progress_tail_bounds (p a : ℚ) (l : List ℚ) (fin : ℚ)
    (hchain : List.Chain' (· ≤ ·) (a :: l))
    (hlast : (a :: l).getLast? = some fin)
    (hbound : ∀ q ∈ l, q < 7/10)
    (hp : p ≤ a) (ha : a ≤ 4/5) :
    List.Chain' (· ≤ ·) (p :: ((a :: l) ++ [(4 : ℚ)/5])) ∧
    (∀ q ∈ (a :: l) ++ [(4 : ℚ)/5], q ≤ 4/5) ∧
    (p :: ((a :: l) ++ [(4 : ℚ)/5])).getLast? = some ((4 : ℚ)/5) := by
  have hfin_le : fin ≤ 4/5 := by
    rcases List.mem_cons.mp (mem_of_getLast?_eq hlast) with h | h
    · subst h
      exact ha
    · have := hbound fin h
      linarith
  refine ⟨?_, ?_, ?_⟩
  · rw [← List.cons_append]
    refine List.chain'_append.mpr
      ⟨List.chain'_cons.mpr ⟨hp, hchain⟩, List.chain'_singleton _, ?_⟩
    intro x hx y hy
    simp only [List.head?_cons, Option.mem_def, Option.some.injEq] at hy
    subst hy
    rw [Option.mem_def, List.getLast?_cons_cons, hlast] at hx
    have hx2 : fin = x := Option.some.inj hx
    subst hx2
    exact hfin_le
  · intro q hq
    rcases List.mem_append.mp hq with h | h
    · rcases List.mem_cons.mp h with h2 | h2
      · subst h2
        exact ha
      · have := hbound q h2
        linarith
    · simp only [List.mem_singleton] at h
      subst h
      norm_num
  · rw [← List.cons_append]
    exact List.getLast?_concat _

theorem convert_progress (env : ConvEnv) (out : String) (st0 : AppStatus)
    (h0 : st0.progress = 0) :
    List.Chain' (· ≤ ·)
      (st0.progress :: progressSeq (convert_pdf_to_keynote env out st0).2.2) ∧
    (∀ q ∈ progressSeq (convert_pdf_to_keynote env out st0).2.2, q ≤ 4/5) ∧
    (st0.progress :: progressSeq (convert_pdf_to_keynote env out st0).2.2).getLast? =
      some (convert_pdf_to_keynote env out st0).2.1.progress := by
  cases hts : env.now with
  | error e =>
    simp [convert_pdf_to_keynote, hts, progressSeq]
  | ok ts =>
    cases hcd : env.createDirOk with
    | error e =>
      simp [convert_pdf_to_keynote, hts, hcd, progressSeq]
    | ok u =>
      cases hnp : env.newProcessor with
      | error e2 =>
        simp only [convert_pdf_to_keynote, hts, hcd, hnp, progressSeq,
          List.filterMap_cons, Ev.progressOf, List.filterMap_nil]
        refine ⟨?_, ?_, rfl⟩
        · exact List.chain'_cons.mpr ⟨by rw [h0]; norm_num, List.chain'_singleton _⟩
        · intro q hq
          simp only [List.mem_singleton] at hq
          subst hq
          norm_num
      | ok v =>
        cases hrp : render_pages env.openOk env.pages 200 env.pageOk with
        | error e =>
          simp only [convert_pdf_to_keynote, hts, hcd, hnp, hrp, progressSeq,
            List.filterMap_cons, Ev.progressOf, List.filterMap_nil]
          refine ⟨?_, ?_, rfl⟩
          · exact List.chain'_cons.mpr ⟨by rw [h0]; norm_num, List.chain'_singleton _⟩
          · intro q hq
            simp only [List.mem_singleton] at hq
            subst hq
            norm_num
        | ok images =>
          have hsl := spoolLoop_progress ("/tmp/pdf2key_" ++ toString ts) images.length
            env.saveOk images 0
            { st0 with message := "Renderizando páginas...", progress := 1/10 }
            (by omega)
            (by push_cast; norm_num)
          simp only [progressSeq] at hsl
          cases hsp : (spoolLoop ("/tmp/pdf2key_" ++ toString ts) images.length env.saveOk
              images 0
              { st0 with message := "Renderizando páginas...", progress := 1/10 }).1 with
          | error e =>
            simp only [convert_pdf_to_keynote, hts, hcd, hnp, hrp, hsp, progressSeq,
              List.filterMap_append, List.filterMap_cons, Ev.progressOf,
              List.filterMap_nil, List.nil_append, List.singleton_append]
            refine ⟨?_, ?_, ?_⟩
            · exact List.chain'_cons.mpr ⟨by rw [h0]; norm_num, hsl.1⟩
            · intro q hq
              simp only [List.mem_cons] at hq
              rcases hq with hq | hq
              · subst hq
                norm_num
              · have := hsl.2.1 q hq
                linarith
            · rw [List.getLast?_cons_cons]
              exact hsl.2.2
          | ok paths =>
            cases hbr : ((paths.foldl (fun bb p => bb.add_slide p) KeynoteBuilder.new).build
                out env.osa).1 with
            | error e =>
              cases h2 : ((paths.foldl (fun bb p => bb.add_slide p)
                  KeynoteBuilder.new).build out env.osa).2 with
              | false =>
                simp only [convert_pdf_to_keynote, hts, hcd, hnp, hrp, hsp, hbr, h2,
                  Bool.false_eq_true, if_false, progressSeq, List.filterMap_append,
                  List.filterMap_cons, Ev.progressOf, List.filterMap_nil,
                  List.nil_append, List.append_nil, List.singleton_append]
                exact progress_tail_bounds st0.progress (1/10) _ _ hsl.1 hsl.2.2 hsl.2.1
                  (by rw [h0]; norm_num) (by norm_num)
              | true =>
                simp only [convert_pdf_to_keynote, hts, hcd, hnp, hrp, hsp, hbr, h2,
                  eq_self_iff_true, if_true, progressSeq, List.filterMap_append,
                  List.filterMap_cons, Ev.progressOf, List.filterMap_nil,
                  List.nil_append, List.append_nil, List.singleton_append]
                exact progress_tail_bounds st0.progress (1/10) _ _ hsl.1 hsl.2.2 hsl.2.1
                  (by rw [h0]; norm_num) (by norm_num)
            | ok w =>
              simp only [convert_pdf_to_keynote, hts, hcd, hnp, hrp, hsp, hbr,
                progressSeq, List.filterMap_append, List.filterMap_cons,
                Ev.progressOf, List.filterMap_nil, List.nil_append, List.append_nil,
                List.singleton_append]
              exact progress_tail_bounds st0.progress (1/10) _ _ hsl.1 hsl.2.2 hsl.2.1
                (by rw [h0]; norm_num) (by norm_num)

/-- C4: over the lifetime of one job the sequence of progress values carried
by the status writes is non-decreasing; when the job succeeds the final
status write is the terminal "Concluído!" with progress exactly 1.0 and the
success flag; when any phase fails every written progress value stays
strictly below 1.0 and the final (terminal) status write carries the error
flag with its progress still below 1.0. -/
theorem progress_monotone_terminal (env : ConvEnv) (out : String) :
    List.Chain' (· ≤ ·) (progressSeq (start_conversion env out).2) ∧
    (match (convert_pdf_to_keynote env out resetStatus).1 with
     | .ok _ =>
       (statusSeq (start_conversion env out).2).getLast? =
         some { message := "Concluído!", progress := 1, is_error := false,
                is_success := true } ∧
       (progressSeq (start_conversion env out).2).getLast? = some 1
     | .error _ =>
       (∀ q ∈ progressSeq (start_conversion env out).2, q < 1) ∧
       ∃ st, (statusSeq (start_conversion env out).2).getLast? = some st ∧
         st.is_error = true ∧ st.progress < 1) := by
  have hcp := convert_progress env out resetStatus rfl
  rw [show resetStatus.progress = (0 : ℚ) from rfl] at hcp
  simp only [progressSeq] at hcp
  have hfin_mem : (convert_pdf_to_keynote env out resetStatus).2.1.progress ∈
      (0 : ℚ) :: progressSeq (convert_pdf_to_keynote env out resetStatus).2.2 :=
    mem_of_getLast?_eq hcp.2.2
  have hfin_le : (convert_pdf_to_keynote env out resetStatus).2.1.progress ≤ 4/5 := by
    rcases List.mem_cons.mp hfin_mem with h | h
    · rw [h]
      norm_num
    · exact hcp.2.1 _ h
  cases hr : (convert_pdf_to_keynote env out resetStatus).1 with
  | ok w =>
    simp only [start_conversion, hr, progressSeq, statusSeq,
      show resetStatus.progress = (0 : ℚ) from rfl,
      List.filterMap_cons, Ev.progressOf, Ev.statusOf, List.filterMap_append,
      List.filterMap_nil, List.append_nil]
    refine ⟨?_, ?_, ?_⟩
    · rw [← List.cons_append]
      refine List.chain'_append.mpr ⟨hcp.1, List.chain'_singleton _, ?_⟩
      intro x hx y hy
      simp only [List.head?_cons, Option.mem_def, Option.some.injEq] at hy
      subst hy
      rw [Option.mem_def, hcp.2.2] at hx
      have hx2 := Option.some.inj hx
      subst hx2
      linarith
    · rw [← List.cons_append]
      exact List.getLast?_concat _
    · rw [← List.cons_append]
      exact List.getLast?_concat _
  | error e =>
    simp only [start_conversion, hr, progressSeq, statusSeq,
      show resetStatus.progress = (0 : ℚ) from rfl,
      List.filterMap_cons, Ev.progressOf, Ev.statusOf, List.filterMap_append,
      List.filterMap_nil, List.append_nil]
    refine ⟨?_, ?_, ?_⟩
    · rw [← List.cons_append]
      refine List.chain'_append.mpr ⟨hcp.1, List.chain'_singleton _, ?_⟩
      intro x hx y hy
      simp only [List.head?_cons, Option.mem_def, Option.some.injEq] at hy
      subst hy
      rw [Option.mem_def, hcp.2.2] at hx
      have hx2 := Option.some.inj hx
      subst hx2
      exact le_refl _
    · intro q hq
      rcases List.mem_cons.mp hq with h | h
      · rw [h]
        norm_num
      · rcases List.mem_append.mp h with h2 | h2
        · have := hcp.2.1 q h2
          linarith
        · simp only [List.mem_singleton] at h2
          rw [h2]
          linarith
    · refine ⟨AppStatus.mk ("Erro: " ++ e)
          (convert_pdf_to_keynote env out resetStatus).2.1.progress true false,
          ?_, rfl, ?_⟩
      · rw [← List.cons_append]
        exact List.getLast?_concat _
      · show (convert_pdf_to_keynote env out resetStatus).2.1.progress < 1
        linarith
